import Mathlib

/-!
Shallow embedding of `clippy_lints/src/trait_bounds.rs`: the two lints
`TYPE_REPETITION_IN_BOUNDS` (method `TraitBounds::check_type_repetition`) and
`TRAIT_DUPLICATION_IN_BOUNDS` (free function `check_trait_bound_duplication`),
together with the `SpanlessTy` map-key wrapper whose equality and hash are the
span-ignoring structural comparison of types.

The HIR data the pass reads (`rustc_hir::{Generics, WherePredicate, Ty, ...}`)
and the `clippy_utils` helpers (`SpanlessEq::eq_ty`, `SpanlessHash::hash_ty`,
`snippet`) live outside this repository; they are modelled from the spec where
noted.  Diagnostics emitted through `span_lint_and_help` are collected into an
explicit list of `Finding`s, in emission order.
-/

set_option autoImplicit false

namespace TraitBounds

/-- Modelled from the spec: a `source_range`.  `id` distinguishes distinct
ranges, `from_expansion` is the macro-expansion predicate on the range, and
`text` is the host's source-range → literal-text lookup (`snippet`). -/
structure Span where
  id : Nat
  from_expansion : Bool
  text : String
deriving Repr, DecidableEq

/-- Modelled from the spec: `Res`/`Symbol`, an opaque resolved identity for a
trait, stable across differing paths or aliases naming the same definition. -/
abbrev Res : Type := Nat

/-- Modelled from the spec: the fragment of `rustc_hir::Ty` (a `TypeExpr` AST
subtree) that the pass inspects.  `path_resolved` is
`TyKind::Path(QPath::Resolved(self_ty, Path { res, segments, span }))` with
segments reduced to their identifiers; `path_type_relative` is
`TyKind::Path(QPath::TypeRelative(ty, segment))`; `slice` and `ref` are
non-path kinds. -/
inductive Ty where
  | path_resolved (span : Span) (self_ty : Option Ty) (res : Res)
      (segments : List String) (path_span : Span)
  | path_type_relative (span : Span) (base : Ty) (segment : String)
  | slice (span : Span) (elem : Ty)
  | ref (span : Span) (elem : Ty)
deriving Repr

/-- Projection `Ty.span`: the span of the whole type node. -/
def Ty.span : Ty → Span
  | .path_resolved s _ _ _ _ => s
  | .path_type_relative s _ _ => s
  | .slice s _ => s
  | .ref s _ => s

/-- Modelled from the spec: `SpanlessEq::eq_ty` (the `PartialEq` of
`SpanlessTy`): structural equality of type expressions that walks both trees
in lock-step, comparing constructor kind, resolved targets and segment
identifiers recursively, and never comparing spans or source text. -/
def spanless_eq_ty : Ty → Ty → Bool
  | .path_resolved _ none r1 segs1 _, .path_resolved _ none r2 segs2 _ =>
      r1 == r2 && segs1 == segs2
  | .path_resolved _ (some a) r1 segs1 _, .path_resolved _ (some b) r2 segs2 _ =>
      spanless_eq_ty a b && (r1 == r2 && segs1 == segs2)
  | .path_type_relative _ a s1, .path_type_relative _ b s2 =>
      spanless_eq_ty a b && s1 == s2
  | .slice _ a, .slice _ b => spanless_eq_ty a b
  | .ref _ a, .ref _ b => spanless_eq_ty a b
  | _, _ => false

/-- Modelled from the spec: a position-independent hash of a string. -/
def hash_string (s : String) : Nat :=
  s.foldl (fun a c => a * 31 + c.toNat) 7

/-- Modelled from the spec: a position-independent hash of a segment list. -/
def hash_segments (segs : List String) : Nat :=
  segs.foldl (fun a s => a * 131 + hash_string s) 11

/-- Modelled from the spec: `SpanlessHash::hash_ty` (the `Hash` of
`SpanlessTy`): hashes exactly the structure that `spanless_eq_ty` compares —
constructor kind, resolved targets, segment identifiers and sub-expressions —
and never spans or source text. -/
def spanless_hash_ty : Ty → Nat
  | .path_resolved _ none r segs _ => 1 + 31 * r + 17 * hash_segments segs
  | .path_resolved _ (some a) r segs _ =>
      2 + 31 * r + 17 * hash_segments segs + 101 * spanless_hash_ty a
  | .path_type_relative _ a s => 3 + 17 * hash_string s + 101 * spanless_hash_ty a
  | .slice _ a => 4 + 101 * spanless_hash_ty a
  | .ref _ a => 5 + 101 * spanless_hash_ty a

/-- Data of `TraitRef.path` for a bound: the resolved target (`path.res`) and the span
of the path (used by `snippet` when building the repetition hint). -/
structure TraitRefPath where
  res : Res
  span : Span
deriving Repr, DecidableEq

/-- Modelled from the spec: `rustc_hir::GenericBound`; `Trait(PolyTraitRef { trait_ref.path, span }, _)`
carries the trait path and the span of the whole bound; `Outlives` is a
lifetime bound. -/
inductive GenericBound where
  | traitBound (path : TraitRefPath) (span : Span)
  | outlives (span : Span)
deriving Repr, DecidableEq

/-- Modelled from the spec: `rustc_hir::WhereBoundPredicate`; the bounded type, its bound list, and
the predicate's span. -/
structure WhereBoundPredicate where
  span : Span
  bounded_ty : Ty
  bounds : List GenericBound
deriving Repr

/-- Modelled from the spec: `rustc_hir::WherePredicate`; only the `BoundPredicate` variant is examined
by either lint; region (lifetime) and equality predicates are skipped. -/
inductive WherePredicate where
  | boundPredicate (p : WhereBoundPredicate)
  | regionPredicate (span : Span)
  | eqPredicate (span : Span)
deriving Repr

/-- Modelled from the spec: `rustc_hir::ParamName`; only `Plain` parameter names enter the map of
`check_trait_bound_duplication`. -/
inductive ParamName where
  | plain (ident : String)
  | fresh (idx : Nat)
  | error
deriving Repr, DecidableEq

/-- Modelled from the spec: `rustc_hir::GenericParam`; its name and inline bounds. -/
structure GenericParam where
  name : ParamName
  bounds : List GenericBound
deriving Repr

/-- Modelled from the spec: `rustc_hir::Generics`; parameter list, where-clause predicate list and
the span of the whole generics node. -/
structure Generics where
  params : List GenericParam
  predicates : List WherePredicate
  span : Span
deriving Repr

/-- The two lints registered by `impl_lint_pass!(TraitBounds => ...)`. -/
inductive LintId where
  | typeRepetitionInBounds
  | traitDuplicationInBounds
deriving Repr, DecidableEq

/-- One call to `span_lint_and_help`: lint, anchor span, primary message and
help (suggested-fix) text. -/
structure Finding where
  lint : LintId
  span : Span
  message : String
  help : String
deriving Repr, DecidableEq

/-- Function `get_trait_res_span_from_bound`: for a `GenericBound::Trait(t, _)` return
`(t.trait_ref.path.res, t.span)`, otherwise `None`. -/
def get_trait_res_span_from_bound : GenericBound → Option (Res × Span)
  | .traitBound p s => some (p.res, s)
  | .outlives _ => none

/-- The `UnhashMap<SpanlessTy, Vec<&GenericBound>>` of `check_type_repetition`,
as an association list whose key comparison is `spanless_eq_ty` (valid because
equal keys hash equally, see `SpanlessTy` invariant). -/
abbrev RepMap : Type := List (Ty × List GenericBound)

/-- Map lookup keyed by `spanless_eq_ty`. -/
def repLookup : RepMap → Ty → Option (List GenericBound)
  | [], _ => none
  | (k, v) :: rest, t => if spanless_eq_ty k t then some v else repLookup rest t

/-- Map insert keyed by `spanless_eq_ty`; like Rust's `HashMap::insert` it
replaces the value of an existing entry but keeps the stored key. -/
def repInsert : RepMap → Ty → List GenericBound → RepMap
  | [], t, v => [(t, v)]
  | (k, w) :: rest, t, v =>
      if spanless_eq_ty k t then (k, v) :: rest else (k, w) :: repInsert rest t v

/-- One `push_str(&format!(" {} +", snippet(path.span)))` step of the hint
construction, applied to trait bounds only. -/
def pushBoundText (acc : String) (b : GenericBound) : String :=
  match b with
  | .traitBound p _ => acc ++ " " ++ p.span.text ++ " +"
  | .outlives _ => acc

/-- The `hint_string` of `check_type_repetition`: start from
`consider combining the bounds: ` plus the bounded type's snippet and `:`,
append ` <path snippet> +` for every trait bound of the previous entry and
then of the current predicate, truncate the trailing two characters (` +`)
and close the backquote. -/
def hint_string (ty_span : Span) (prev cur : List GenericBound) : String :=
  let s0 := "consider combining the bounds: `" ++ ty_span.text ++ ":"
  let s1 := prev.foldl pushBoundText s0
  let s2 := cur.foldl pushBoundText s1
  (s2.take (s2.length - 2)) ++ "`"

/-- State threaded through the predicate loop of `check_type_repetition`:
the map and the findings emitted so far. -/
structure RepState where
  map : RepMap
  findings : List Finding
deriving Repr

/-- The body of the `for bound in gen.where_clause.predicates` loop of
`check_type_repetition`: for a `BoundPredicate` with at most
`max_trait_bounds` bounds whose span is not from expansion, insert the
bounds under the spanless type key; if a previous entry existed, emit a
`TYPE_REPETITION_IN_BOUNDS` finding at the predicate's span carrying the
merged hint. -/
def repStep (max_trait_bounds : Nat) (st : RepState) (pred : WherePredicate) :
    RepState :=
  match pred with
  | .boundPredicate p =>
      if p.bounds.length ≤ max_trait_bounds ∧ p.span.from_expansion = false then
        match repLookup st.map p.bounded_ty with
        | some v =>
            { map := repInsert st.map p.bounded_ty p.bounds,
              findings := st.findings ++
                [{ lint := .typeRepetitionInBounds,
                   span := p.span,
                   message := "this type has already been used as a bound predicate",
                   help := hint_string p.bounded_ty.span v p.bounds }] }
        | none =>
            { map := repInsert st.map p.bounded_ty p.bounds,
              findings := st.findings }
      else st
  | _ => st

/-- Method `TraitBounds::check_type_repetition`: skip generics from expansion, then
run the predicate loop over an initially empty map. -/
def check_type_repetition (max_trait_bounds : Nat) (g : Generics) :
    List Finding :=
  if g.span.from_expansion then []
  else (g.predicates.foldl (repStep max_trait_bounds) ⟨[], []⟩).findings

/-- The `FxHashMap<Ident, Vec<(Res, Span)>>` of
`check_trait_bound_duplication`, as an association list keyed by the
parameter identifier. -/
abbrev ParamMap : Type := List (String × List (Res × Span))

/-- Parameter-map lookup by identifier. -/
def paramLookup : ParamMap → String → Option (List (Res × Span))
  | [], _ => none
  | (k, v) :: rest, s => if k == s then some v else paramLookup rest s

/-- Parameter-map insert by identifier (replaces an existing entry's value). -/
def paramInsert : ParamMap → String → List (Res × Span) → ParamMap
  | [], s, v => [(s, v)]
  | (k, w) :: rest, s, v =>
      if k == s then (k, v) :: rest else (k, w) :: paramInsert rest s v

/-- The first loop of `check_trait_bound_duplication`: for every parameter
with a `Plain` name, record the `(res, span)` pairs of its inline trait
bounds under its identifier. -/
def buildParamMap (params : List GenericParam) : ParamMap :=
  params.foldl
    (fun m param =>
      match param.name with
      | .plain ident =>
          paramInsert m ident (param.bounds.filterMap get_trait_res_span_from_bound)
      | _ => m)
    []

/-- The body of the second loop of `check_trait_bound_duplication`, for one
predicate: a non-expanded `BoundPredicate` whose bounded type is
`TyKind::Path(QPath::Resolved(_, Path { segments, .. }))` is matched through
`segments.first()`; for every trait bound of the predicate whose resolved
target is found (by `find`, hence first match) among the parameter's inline
bounds, a `TRAIT_DUPLICATION_IN_BOUNDS` finding is emitted at the inline
bound's span. -/
def dupFindingsForPredicate (m : ParamMap) (pred : WherePredicate) :
    List Finding :=
  match pred with
  | .boundPredicate bp =>
      if bp.span.from_expansion = false then
        match bp.bounded_ty with
        | .path_resolved _ _ _ segments _ =>
            match segments.head? with
            | some segment =>
                match paramLookup m segment with
                | some trait_resolutions_direct =>
                    (bp.bounds.filterMap get_trait_res_span_from_bound).filterMap
                      (fun rw =>
                        (trait_resolutions_direct.find?
                            (fun rd => rd.1 == rw.1)).map
                          (fun rd =>
                            { lint := .traitDuplicationInBounds,
                              span := rd.2,
                              message := "this trait bound is already specified in the where clause",
                              help := "consider removing this trait bound" }))
                | none => []
            | none => []
        | _ => []
      else []
  | _ => []

/-- Function `check_trait_bound_duplication`: early-exit when the generics span is
from expansion, there are no parameters, or no predicates; otherwise build
the parameter map and emit, in predicate order, the duplication findings. -/
def check_trait_bound_duplication (g : Generics) : List Finding :=
  if g.span.from_expansion ∨ g.params.isEmpty ∨ g.predicates.isEmpty then []
  else
    let m := buildParamMap g.params
    g.predicates.foldl (fun fs pred => fs ++ dupFindingsForPredicate m pred) []


/-! ### Helper lemmas about the repetition detector -/

/-- Discriminator for the `BoundPredicate` variant. -/
def WherePredicate.isBound : WherePredicate → Bool
  | .boundPredicate _ => true
  | _ => false

/-- A predicate that is not a `BoundPredicate` leaves the loop state of
`check_type_repetition` unchanged. -/
theorem repStep_nonbound (conf : Nat) (st : RepState) (q : WherePredicate)
    (h : q.isBound = false) : repStep conf st q = st := by
  cases q with
  | boundPredicate p => simp [WherePredicate.isBound] at h
  | regionPredicate s => rfl
  | eqPredicate s => rfl

/-- A run of non-`BoundPredicate` predicates leaves the loop state of
`check_type_repetition` unchanged. -/
theorem foldl_repStep_nonbound (conf : Nat) (st : RepState)
    (l : List WherePredicate) (h : ∀ q ∈ l, q.isBound = false) :
    l.foldl (repStep conf) st = st := by
  induction l generalizing st with
  | nil => rfl
  | cons q rest ih =>
      rw [List.foldl_cons, repStep_nonbound conf st q (h q (by simp)),
        ih st (fun q hq => h q (by simp [hq]))]

/-- A `BoundPredicate` that is skipped — too many bounds or a macro-expanded
span — leaves the loop state of `check_type_repetition` unchanged. -/
theorem repStep_skip (conf : Nat) (st : RepState) (p : WhereBoundPredicate)
    (h : conf < p.bounds.length ∨ p.span.from_expansion = true) :
    repStep conf st (.boundPredicate p) = st := by
  simp only [repStep]
  rw [if_neg]
  rintro ⟨h1, h2⟩
  rcases h with h | h
  · omega
  · rw [h2] at h; cases h

/-- Claim C1 theorem: in a declaration whose generics are not macro-expanded
and whose where clause contains exactly two `BoundPredicate` entries (any
further entries being region or equality predicates), with structurally equal
bounded types, neither predicate macro-expanded and both bound counts at most
`max_trait_bounds`, `check_type_repetition` emits exactly one
`TYPE_REPETITION_IN_BOUNDS` finding, anchored at the second predicate's
span. -/
theorem type_repetition_two_bound_predicates
    (conf : Nat) (params : List GenericParam) (gsp : Span)
    (l1 l2 l3 : List WherePredicate) (p1 p2 : WhereBoundPredicate)
    (hgs : gsp.from_expansion = false)
    (hl1 : ∀ q ∈ l1, q.isBound = false)
    (hl2 : ∀ q ∈ l2, q.isBound = false)
    (hl3 : ∀ q ∈ l3, q.isBound = false)
    (heq : spanless_eq_ty p1.bounded_ty p2.bounded_ty = true)
    (he1 : p1.span.from_expansion = false)
    (he2 : p2.span.from_expansion = false)
    (hb1 : p1.bounds.length ≤ conf)
    (hb2 : p2.bounds.length ≤ conf) :
    (check_type_repetition conf
        ⟨params, l1 ++ .boundPredicate p1 :: (l2 ++ .boundPredicate p2 :: l3),
         gsp⟩).map (fun f => (f.lint, f.span))
      = [(.typeRepetitionInBounds, p2.span)] := by
  simp only [check_type_repetition, hgs, Bool.false_eq_true, if_false]
  rw [List.foldl_append, foldl_repStep_nonbound conf _ l1 hl1, List.foldl_cons,
    List.foldl_append, foldl_repStep_nonbound conf _ l2 hl2, List.foldl_cons,
    foldl_repStep_nonbound conf _ l3 hl3]
  simp [repStep, repLookup, repInsert, hb1, hb2, he1, he2, heq]

/-- Claim C1 witness: a concrete two-predicate declaration instantiating
`type_repetition_two_bound_predicates`. -/
theorem type_repetition_two_bound_predicates_witness :
    (check_type_repetition 3
        ⟨[], [] ++ .boundPredicate
                ⟨⟨1, false, "T: Copy"⟩,
                 .path_resolved ⟨10, false, "T"⟩ none 100 ["T"] ⟨11, false, "T"⟩,
                 [.traitBound ⟨201, ⟨2, false, "Copy"⟩⟩ ⟨3, false, "Copy"⟩]⟩
              :: ([] ++ .boundPredicate
                ⟨⟨4, false, "T: Clone"⟩,
                 .path_resolved ⟨20, false, "T"⟩ none 100 ["T"] ⟨21, false, "T"⟩,
                 [.traitBound ⟨202, ⟨5, false, "Clone"⟩⟩ ⟨6, false, "Clone"⟩]⟩
              :: []), ⟨0, false, "g"⟩⟩).map (fun f => (f.lint, f.span))
      = [(.typeRepetitionInBounds, ⟨4, false, "T: Clone"⟩)] :=
  type_repetition_two_bound_predicates 3 [] ⟨0, false, "g"⟩ [] [] [] _ _
    rfl (by simp) (by simp) (by simp) (by decide) rfl rfl (by decide) (by decide)

/-- Claim C3 theorem: with three non-skipped `BoundPredicate`s whose bounded
types are structurally equal, `check_type_repetition` emits one finding per
predicate after the first, and each finding's hint combines only the
immediately preceding occurrence's bounds with the current predicate's bounds
(the map entry is overwritten, not unioned). -/
theorem type_repetition_overwrite_previous
    (conf : Nat) (params : List GenericParam) (gsp : Span)
    (p1 p2 p3 : WhereBoundPredicate)
    (hgs : gsp.from_expansion = false)
    (heq12 : spanless_eq_ty p1.bounded_ty p2.bounded_ty = true)
    (heq13 : spanless_eq_ty p1.bounded_ty p3.bounded_ty = true)
    (he1 : p1.span.from_expansion = false)
    (he2 : p2.span.from_expansion = false)
    (he3 : p3.span.from_expansion = false)
    (hb1 : p1.bounds.length ≤ conf)
    (hb2 : p2.bounds.length ≤ conf)
    (hb3 : p3.bounds.length ≤ conf) :
    check_type_repetition conf
        ⟨params, [.boundPredicate p1, .boundPredicate p2, .boundPredicate p3],
         gsp⟩
      = [{ lint := .typeRepetitionInBounds, span := p2.span,
           message := "this type has already been used as a bound predicate",
           help := hint_string p2.bounded_ty.span p1.bounds p2.bounds },
         { lint := .typeRepetitionInBounds, span := p3.span,
           message := "this type has already been used as a bound predicate",
           help := hint_string p3.bounded_ty.span p2.bounds p3.bounds }] := by
  simp only [check_type_repetition, hgs, Bool.false_eq_true, if_false]
  simp [repStep, repLookup, repInsert, hb1, hb2, hb3, he1, he2, he3, heq12,
    heq13]

/-- Claim C3 witness: three predicates `T: Copy`, `T: Clone`, `T: Default`
instantiating `type_repetition_overwrite_previous`; the second hint combines
only `Clone` with `Default`. -/
theorem type_repetition_overwrite_previous_witness :
    check_type_repetition 3
        ⟨[], [.boundPredicate
                ⟨⟨1, false, "T: Copy"⟩,
                 .path_resolved ⟨10, false, "T"⟩ none 100 ["T"] ⟨11, false, "T"⟩,
                 [.traitBound ⟨201, ⟨2, false, "Copy"⟩⟩ ⟨3, false, "Copy"⟩]⟩,
              .boundPredicate
                ⟨⟨4, false, "T: Clone"⟩,
                 .path_resolved ⟨20, false, "T"⟩ none 100 ["T"] ⟨21, false, "T"⟩,
                 [.traitBound ⟨202, ⟨5, false, "Clone"⟩⟩ ⟨6, false, "Clone"⟩]⟩,
              .boundPredicate
                ⟨⟨7, false, "T: Default"⟩,
                 .path_resolved ⟨30, false, "T"⟩ none 100 ["T"] ⟨31, false, "T"⟩,
                 [.traitBound ⟨203, ⟨8, false, "Default"⟩⟩ ⟨9, false, "Default"⟩]⟩],
         ⟨0, false, "g"⟩⟩
      = [{ lint := .typeRepetitionInBounds, span := ⟨4, false, "T: Clone"⟩,
           message := "this type has already been used as a bound predicate",
           help := "consider combining the bounds: `T: Copy + Clone`" },
         { lint := .typeRepetitionInBounds, span := ⟨7, false, "T: Default"⟩,
           message := "this type has already been used as a bound predicate",
           help := "consider combining the bounds: `T: Clone + Default`" }] := by
  rw [type_repetition_overwrite_previous 3 [] _ _ _ _ rfl (by decide)
    (by decide) rfl rfl rfl (by decide) (by decide) (by decide)]
  set_option maxRecDepth 10000 in decide

/-- Claim C9 theorem: a `BoundPredicate` that is skipped (bound count above
`max_trait_bounds`, or macro-expanded) is fully transparent: deleting it from
the where clause does not change the findings of `check_type_repetition`, so
it is never inserted into the map and neither triggers nor suppresses any
finding. -/
theorem type_repetition_skipped_transparent
    (conf : Nat) (params : List GenericParam) (gsp : Span)
    (pre post : List WherePredicate) (p : WhereBoundPredicate)
    (hskip : conf < p.bounds.length ∨ p.span.from_expansion = true) :
    check_type_repetition conf ⟨params, pre ++ .boundPredicate p :: post, gsp⟩
      = check_type_repetition conf ⟨params, pre ++ post, gsp⟩ := by
  simp only [check_type_repetition]
  by_cases hg : gsp.from_expansion
  · simp [hg]
  · simp only [hg, Bool.false_eq_true, if_false]
    rw [List.foldl_append, List.foldl_cons, repStep_skip conf _ p hskip,
      List.foldl_append]

/-- Claim C9 witness: deleting a concrete skipped predicate (two bounds with
`max_trait_bounds = 1`) leaves the findings unchanged, by
`type_repetition_skipped_transparent`. -/
theorem type_repetition_skipped_transparent_witness :
    check_type_repetition 1
        ⟨[], [] ++ .boundPredicate
                ⟨⟨1, false, "T: Copy + Clone"⟩,
                 .path_resolved ⟨10, false, "T"⟩ none 100 ["T"] ⟨11, false, "T"⟩,
                 [.traitBound ⟨201, ⟨2, false, "Copy"⟩⟩ ⟨3, false, "Copy"⟩,
                  .traitBound ⟨202, ⟨4, false, "Clone"⟩⟩ ⟨5, false, "Clone"⟩]⟩
              :: [], ⟨0, false, "g"⟩⟩
      = check_type_repetition 1 ⟨[], [] ++ [], ⟨0, false, "g"⟩⟩ :=
  type_repetition_skipped_transparent 1 [] ⟨0, false, "g"⟩ [] [] _
    (Or.inl (by decide))

/-! ### Findings and map keys only come from non-skipped bound predicates -/

/-- Any finding present after one loop step of `check_type_repetition` was
either already present, or was emitted for the current predicate: a
`BoundPredicate` with at most `max_trait_bounds` bounds and a span not from
expansion, anchored at that predicate's span. -/
theorem repStep_findings_mem (conf : Nat) (st : RepState) (q : WherePredicate)
    (f : Finding) (h : f ∈ (repStep conf st q).findings) :
    f ∈ st.findings ∨ ∃ p, q = WherePredicate.boundPredicate p ∧
      f.span = p.span ∧ p.bounds.length ≤ conf ∧
      p.span.from_expansion = false := by
  cases q with
  | boundPredicate p =>
      simp only [repStep] at h
      by_cases hc : p.bounds.length ≤ conf ∧ p.span.from_expansion = false
      · rw [if_pos hc] at h
        cases hlk : repLookup st.map p.bounded_ty <;> rw [hlk] at h
        · exact .inl h
        · simp only [List.mem_append, List.mem_singleton] at h
          rcases h with h | h
          · exact .inl h
          · exact .inr ⟨p, rfl, by rw [h], hc.1, hc.2⟩
      · rw [if_neg hc] at h
        exact .inl h
  | regionPredicate s => exact .inl h
  | eqPredicate s => exact .inl h

/-- Fold version of `repStep_findings_mem`: every finding of the predicate
loop comes from some non-skipped `BoundPredicate` of the list. -/
theorem rep_foldl_findings_mem (conf : Nat) (preds : List WherePredicate) :
    ∀ (st : RepState) (f : Finding),
      f ∈ (preds.foldl (repStep conf) st).findings →
      f ∈ st.findings ∨ ∃ p, WherePredicate.boundPredicate p ∈ preds ∧
        f.span = p.span ∧ p.bounds.length ≤ conf ∧
        p.span.from_expansion = false := by
  induction preds with
  | nil => exact fun st f h => .inl h
  | cons q rest ih =>
      intro st f h
      rw [List.foldl_cons] at h
      rcases ih (repStep conf st q) f h with h' | ⟨p, hp, hrest⟩
      · rcases repStep_findings_mem conf st q f h' with h'' | ⟨p, hq, hrest⟩
        · exact .inl h''
        · exact .inr ⟨p, by rw [← hq]; exact List.mem_cons_self q rest, hrest⟩
      · exact .inr ⟨p, List.mem_cons_of_mem q hp, hrest⟩

/-- Every key present after `repInsert` is the inserted key or a key that was
already in the map (Rust's `HashMap::insert` keeps existing keys). -/
theorem repInsert_key_mem (m : RepMap) (t : Ty) (v : List GenericBound)
    (e : Ty × List GenericBound) (h : e ∈ repInsert m t v) :
    e.1 = t ∨ ∃ e' ∈ m, e.1 = e'.1 := by
  induction m with
  | nil =>
      simp only [repInsert, List.mem_singleton] at h
      exact .inl (by rw [h])
  | cons kv rest ih =>
      obtain ⟨k, w⟩ := kv
      simp only [repInsert] at h
      split at h
      · rcases List.mem_cons.mp h with h | h
        · exact .inr ⟨(k, w), List.mem_cons_self _ _, by rw [h]⟩
        · exact .inr ⟨e, List.mem_cons_of_mem _ h, rfl⟩
      · rcases List.mem_cons.mp h with h | h
        · exact .inr ⟨(k, w), List.mem_cons_self _ _, by rw [h]⟩
        · rcases ih h with h' | ⟨e', he', heq⟩
          · exact .inl h'
          · exact .inr ⟨e', List.mem_cons_of_mem _ he', heq⟩

/-- Any map entry present after one loop step of `check_type_repetition` has
a key that was already a key, or the bounded type of the current
non-skipped `BoundPredicate`. -/
theorem repStep_map_keys (conf : Nat) (st : RepState) (q : WherePredicate)
    (e : Ty × List GenericBound) (h : e ∈ (repStep conf st q).map) :
    (∃ e' ∈ st.map, e.1 = e'.1) ∨ ∃ p, q = WherePredicate.boundPredicate p ∧
      e.1 = p.bounded_ty ∧ p.bounds.length ≤ conf ∧
      p.span.from_expansion = false := by
  cases q with
  | boundPredicate p =>
      simp only [repStep] at h
      by_cases hc : p.bounds.length ≤ conf ∧ p.span.from_expansion = false
      · rw [if_pos hc] at h
        cases hlk : repLookup st.map p.bounded_ty <;> rw [hlk] at h <;>
        · rcases repInsert_key_mem st.map p.bounded_ty p.bounds e h with h' | h'
          · exact .inr ⟨p, rfl, h', hc.1, hc.2⟩
          · exact .inl h'
      · rw [if_neg hc] at h
        exact .inl ⟨e, h, rfl⟩
  | regionPredicate s => exact .inl ⟨e, h, rfl⟩
  | eqPredicate s => exact .inl ⟨e, h, rfl⟩

/-- Fold version of `repStep_map_keys`: every key of the loop's map is the
bounded type of some non-skipped `BoundPredicate` of the list, or a key of
the initial map. -/
theorem rep_foldl_map_keys (conf : Nat) (preds : List WherePredicate) :
    ∀ (st : RepState) (e : Ty × List GenericBound),
      e ∈ (preds.foldl (repStep conf) st).map →
      (∃ e' ∈ st.map, e.1 = e'.1) ∨
        ∃ p, WherePredicate.boundPredicate p ∈ preds ∧ e.1 = p.bounded_ty ∧
          p.bounds.length ≤ conf ∧ p.span.from_expansion = false := by
  induction preds with
  | nil => exact fun st e h => .inl ⟨e, h, rfl⟩
  | cons q rest ih =>
      intro st e h
      rw [List.foldl_cons] at h
      rcases ih (repStep conf st q) e h with ⟨e', he', heq⟩ | ⟨p, hp, hrest⟩
      · rcases repStep_map_keys conf st q e' he' with ⟨e'', he'', heq'⟩ |
            ⟨p, hq, hkey, hlen, hexp⟩
        · exact .inl ⟨e'', he'', heq.trans heq'⟩
        · exact .inr ⟨p, by rw [← hq]; exact List.mem_cons_self q rest,
            heq.trans hkey, hlen, hexp⟩
      · exact .inr ⟨p, List.mem_cons_of_mem q hp, hrest⟩

/-- Concrete declaration `fn f<T>() where T: Copy, T: Clone`: one plain
parameter `T` with no inline bounds and two one-bound predicates on `T`,
nothing macro-expanded. -/
def copy_clone_generics : Generics :=
  ⟨[⟨.plain "T", []⟩],
   [.boundPredicate
      ⟨⟨1, false, "T: Copy"⟩,
       .path_resolved ⟨10, false, "T"⟩ none 100 ["T"] ⟨11, false, "T"⟩,
       [.traitBound ⟨201, ⟨2, false, "Copy"⟩⟩ ⟨3, false, "Copy"⟩]⟩,
    .boundPredicate
      ⟨⟨4, false, "T: Clone"⟩,
       .path_resolved ⟨20, false, "T"⟩ none 100 ["T"] ⟨21, false, "T"⟩,
       [.traitBound ⟨202, ⟨5, false, "Clone"⟩⟩ ⟨6, false, "Clone"⟩]⟩],
   ⟨0, false, "g"⟩⟩

/-- Claim C5 theorem: `check_type_repetition` never emits a finding for, nor
keys the map against, a predicate whose bound count exceeds
`max_trait_bounds`: every finding is anchored at the span of some
`BoundPredicate` with bound count at most the threshold (and a non-expanded
span), every map key is the bounded type of such a predicate, and with
`max_trait_bounds = 0` the declaration `where T: Copy, T: Clone` yields zero
findings. -/
theorem type_repetition_respects_max_trait_bounds :
    (∀ (conf : Nat) (g : Generics) (f : Finding),
        f ∈ check_type_repetition conf g →
        ∃ p, WherePredicate.boundPredicate p ∈ g.predicates ∧
          f.span = p.span ∧ p.bounds.length ≤ conf ∧
          p.span.from_expansion = false)
    ∧ (∀ (conf : Nat) (preds : List WherePredicate)
          (e : Ty × List GenericBound),
        e ∈ (preds.foldl (repStep conf) ⟨[], []⟩).map →
        ∃ p, WherePredicate.boundPredicate p ∈ preds ∧
          e.1 = p.bounded_ty ∧ p.bounds.length ≤ conf ∧
          p.span.from_expansion = false)
    ∧ check_type_repetition 0 copy_clone_generics = [] := by
  refine ⟨fun conf g f h => ?_, fun conf preds e h => ?_, by decide⟩
  · rw [check_type_repetition] at h
    split at h
    · cases h
    · rcases rep_foldl_findings_mem conf g.predicates ⟨[], []⟩ f h with
        h' | ⟨p, hp, hrest⟩
      · cases h'
      · exact ⟨p, hp, hrest⟩
  · rcases rep_foldl_map_keys conf preds ⟨[], []⟩ e h with
      ⟨e', he', _⟩ | ⟨p, hp, hrest⟩
    · cases he'
    · exact ⟨p, hp, hrest⟩

/-- Claim C5 witness: instantiating the finding clause of
`type_repetition_respects_max_trait_bounds` at `max_trait_bounds = 3` on the
`T: Copy, T: Clone` declaration, whose single finding indeed satisfies the
bound-count condition. -/
theorem type_repetition_respects_max_trait_bounds_witness :
    ∃ p, WherePredicate.boundPredicate p ∈ copy_clone_generics.predicates ∧
      (Finding.mk .typeRepetitionInBounds ⟨4, false, "T: Clone"⟩
        "this type has already been used as a bound predicate"
        "consider combining the bounds: `T: Copy + Clone`").span = p.span ∧
      p.bounds.length ≤ 3 ∧ p.span.from_expansion = false :=
  type_repetition_respects_max_trait_bounds.1 3 copy_clone_generics _
    (by set_option maxRecDepth 10000 in decide)

/-! ### Macro-expanded predicates are invisible to both detectors -/

/-- Deleting a predicate on which the loop step is the identity does not
change the output of `check_type_repetition`. -/
theorem check_type_repetition_delete (conf : Nat)
    (params : List GenericParam) (gsp : Span)
    (pre post : List WherePredicate) (q : WherePredicate)
    (hq : ∀ st, repStep conf st q = st) :
    check_type_repetition conf ⟨params, pre ++ q :: post, gsp⟩
      = check_type_repetition conf ⟨params, pre ++ post, gsp⟩ := by
  simp only [check_type_repetition]
  by_cases hg : gsp.from_expansion
  · simp [hg]
  · simp only [hg, Bool.false_eq_true, if_false]
    rw [List.foldl_append, List.foldl_cons, hq, List.foldl_append]

/-- A macro-expanded `BoundPredicate` contributes no duplication findings. -/
theorem dupFindingsForPredicate_skip (m : ParamMap) (p : WhereBoundPredicate)
    (h : p.span.from_expansion = true) :
    dupFindingsForPredicate m (.boundPredicate p) = [] := by
  simp only [dupFindingsForPredicate]
  rw [if_neg (by simp [h])]

/-- Deleting a predicate that contributes no duplication findings does not
change the output of `check_trait_bound_duplication`. -/
theorem check_trait_bound_duplication_delete
    (params : List GenericParam) (gsp : Span)
    (pre post : List WherePredicate) (q : WherePredicate)
    (hq : ∀ m, dupFindingsForPredicate m q = []) :
    check_trait_bound_duplication ⟨params, pre ++ q :: post, gsp⟩
      = check_trait_bound_duplication ⟨params, pre ++ post, gsp⟩ := by
  by_cases hg : gsp.from_expansion = true
  · simp [check_trait_bound_duplication, hg]
  · by_cases hp : params.isEmpty = true
    · simp [check_trait_bound_duplication, hp]
    · cases hpre : pre with
      | nil =>
          cases hpost : post with
          | nil => simp [check_trait_bound_duplication, hg, hp, hq]
          | cons x xs =>
              simp only [check_trait_bound_duplication, hg, hp, hpre, hpost]
              simp only [List.nil_append, List.isEmpty_cons, List.foldl_cons,
                Bool.false_eq_true, or_self, if_false, hq, List.nil_append]
      | cons y ys =>
          simp only [check_trait_bound_duplication, hg, hp, hpre]
          simp only [List.cons_append, List.isEmpty_cons, Bool.false_eq_true,
            or_self, if_false, List.foldl_cons]
          rw [List.foldl_append, List.foldl_cons, hq, List.append_nil,
            List.foldl_append]

/-- Claim C7 theorem: no finding is emitted by either detector from
macro-expanded source: a declaration whose generics span is from expansion
yields no findings at all, and a macro-expanded `BoundPredicate` is
transparent to both detectors — deleting it changes neither detector's
findings (in particular it is never inserted into the repetition map). -/
theorem no_findings_from_expansion :
    (∀ (conf : Nat) (g : Generics), g.span.from_expansion = true →
        check_type_repetition conf g = [] ∧
        check_trait_bound_duplication g = [])
    ∧ (∀ (conf : Nat) (params : List GenericParam) (gsp : Span)
          (pre post : List WherePredicate) (p : WhereBoundPredicate),
        p.span.from_expansion = true →
        check_type_repetition conf
            ⟨params, pre ++ .boundPredicate p :: post, gsp⟩
          = check_type_repetition conf ⟨params, pre ++ post, gsp⟩ ∧
        check_trait_bound_duplication
            ⟨params, pre ++ .boundPredicate p :: post, gsp⟩
          = check_trait_bound_duplication ⟨params, pre ++ post, gsp⟩) := by
  constructor
  · intro conf g hg
    constructor
    · simp [check_type_repetition, hg]
    · simp [check_trait_bound_duplication, hg]
  · intro conf params gsp pre post p hp
    constructor
    · exact check_type_repetition_delete conf params gsp pre post _
        (fun st => repStep_skip conf st p (Or.inr hp))
    · exact check_trait_bound_duplication_delete params gsp pre post _
        (fun m => dupFindingsForPredicate_skip m p hp)

/-- Claim C7 witness: a concrete expanded-generics declaration yields no
findings, and deleting a concrete macro-expanded `T: Clone` predicate leaves
both detectors' findings unchanged, by `no_findings_from_expansion`. -/
theorem no_findings_from_expansion_witness :
    (check_type_repetition 3
        ⟨[⟨.plain "T", []⟩],
         [.boundPredicate
            ⟨⟨1, false, "T: Copy"⟩,
             .path_resolved ⟨10, false, "T"⟩ none 100 ["T"] ⟨11, false, "T"⟩,
             [.traitBound ⟨201, ⟨2, false, "Copy"⟩⟩ ⟨3, false, "Copy"⟩]⟩],
         ⟨0, true, "g"⟩⟩ = [] ∧
      check_trait_bound_duplication
        ⟨[⟨.plain "T", []⟩],
         [.boundPredicate
            ⟨⟨1, false, "T: Copy"⟩,
             .path_resolved ⟨10, false, "T"⟩ none 100 ["T"] ⟨11, false, "T"⟩,
             [.traitBound ⟨201, ⟨2, false, "Copy"⟩⟩ ⟨3, false, "Copy"⟩]⟩],
         ⟨0, true, "g"⟩⟩ = [])
    ∧ (check_type_repetition 3
        ⟨[], [] ++ .boundPredicate
            ⟨⟨7, true, "T: Clone"⟩,
             .path_resolved ⟨20, false, "T"⟩ none 100 ["T"] ⟨21, false, "T"⟩,
             [.traitBound ⟨202, ⟨8, false, "Clone"⟩⟩ ⟨9, false, "Clone"⟩]⟩
          :: [], ⟨0, false, "g"⟩⟩
        = check_type_repetition 3 ⟨[], [] ++ [], ⟨0, false, "g"⟩⟩ ∧
      check_trait_bound_duplication
        ⟨[], [] ++ .boundPredicate
            ⟨⟨7, true, "T: Clone"⟩,
             .path_resolved ⟨20, false, "T"⟩ none 100 ["T"] ⟨21, false, "T"⟩,
             [.traitBound ⟨202, ⟨8, false, "Clone"⟩⟩ ⟨9, false, "Clone"⟩]⟩
          :: [], ⟨0, false, "g"⟩⟩
        = check_trait_bound_duplication ⟨[], [] ++ [], ⟨0, false, "g"⟩⟩) :=
  ⟨no_findings_from_expansion.1 3 _ rfl,
   no_findings_from_expansion.2 3 [] ⟨0, false, "g"⟩ [] [] _ rfl⟩

/-! ### Helper lemmas about the duplication detector -/

/-- The finding-accumulating fold of `check_trait_bound_duplication` factors
through its accumulator. -/
theorem dup_foldl_acc (m : ParamMap) (l : List WherePredicate) :
    ∀ acc : List Finding,
      l.foldl (fun fs pred => fs ++ dupFindingsForPredicate m pred) acc =
        acc ++ l.foldl (fun fs pred => fs ++ dupFindingsForPredicate m pred) [] := by
  induction l with
  | nil => intro acc; simp
  | cons q rest ih =>
      intro acc
      rw [List.foldl_cons, List.foldl_cons, ih (acc ++ _), ih ([] ++ _)]
      simp

/-- Every duplication finding comes from some predicate of the list. -/
theorem dup_mem_foldl (m : ParamMap) (l : List WherePredicate) :
    ∀ f : Finding,
      f ∈ l.foldl (fun fs pred => fs ++ dupFindingsForPredicate m pred) [] →
      ∃ pred ∈ l, f ∈ dupFindingsForPredicate m pred := by
  induction l with
  | nil => intro f h; cases h
  | cons q rest ih =>
      intro f h
      rw [List.foldl_cons, dup_foldl_acc m rest, List.nil_append] at h
      rcases List.mem_append.mp h with h | h
      · exact ⟨q, List.mem_cons_self q rest, h⟩
      · obtain ⟨pred, hpred, hf⟩ := ih f h
        exact ⟨pred, List.mem_cons_of_mem q hpred, hf⟩

/-- A duplication finding for one predicate forces the predicate to be a
non-expanded `BoundPredicate` whose bounded type is a resolved path with a
first segment that is a key of the parameter map. -/
theorem dupFindingsForPredicate_shape (m : ParamMap) (pred : WherePredicate)
    (f : Finding) (h : f ∈ dupFindingsForPredicate m pred) :
    ∃ bp, pred = WherePredicate.boundPredicate bp ∧
      bp.span.from_expansion = false ∧
      ∃ sp stv r segs psp s0 rest,
        bp.bounded_ty = Ty.path_resolved sp stv r segs psp ∧
        segs = s0 :: rest ∧ (paramLookup m s0).isSome = true := by
  cases pred with
  | boundPredicate bp =>
      obtain ⟨bsp, bty, bbounds⟩ := bp
      simp only [dupFindingsForPredicate] at h
      split at h
      · next hexp =>
          cases bty with
          | path_resolved sp stv r segs psp =>
              cases segs with
              | nil => cases h
              | cons s0 rest' =>
                  simp only [List.head?_cons] at h
                  cases hlk : paramLookup m s0 with
                  | none => rw [hlk] at h; cases h
                  | some directs =>
                      rw [hlk] at h
                      exact ⟨⟨bsp, Ty.path_resolved sp stv r (s0 :: rest') psp,
                          bbounds⟩, rfl, hexp, sp, stv, r, s0 :: rest', psp,
                        s0, rest', rfl, rfl, by rw [hlk]; rfl⟩
          | path_type_relative sp b s => cases h
          | slice sp e => cases h
          | ref sp e => cases h
      · cases h
  | regionPredicate s => cases h
  | eqPredicate s => cases h

/-- A parameter list without a single `Plain` name leaves the fold of
`buildParamMap` at its accumulator. -/
theorem foldl_param_no_plain (params : List GenericParam) :
    (∀ p ∈ params, ∀ id, p.name ≠ ParamName.plain id) → ∀ acc : ParamMap,
      params.foldl
        (fun m param =>
          match param.name with
          | ParamName.plain ident =>
              paramInsert m ident
                (param.bounds.filterMap get_trait_res_span_from_bound)
          | _ => m) acc = acc := by
  induction params with
  | nil => intro _ acc; rfl
  | cons p rest ih =>
      intro h acc
      rw [List.foldl_cons]
      have hf : (match p.name with
          | ParamName.plain ident =>
              paramInsert acc ident
                (p.bounds.filterMap get_trait_res_span_from_bound)
          | _ => acc) = acc := by
        cases hname : p.name with
        | plain id => exact absurd hname (h p (List.mem_cons_self _ _) id)
        | fresh i => simp only [hname]
        | error => simp only [hname]
      rw [hf]
      exact ih (fun q hq id => h q (List.mem_cons_of_mem _ hq) id) acc

/-- With no `Plain` parameter name, `buildParamMap` is empty. -/
theorem buildParamMap_no_plain (params : List GenericParam)
    (h : ∀ p ∈ params, ∀ id, p.name ≠ ParamName.plain id) :
    buildParamMap params = [] :=
  foldl_param_no_plain params h []

/-- With an empty parameter map, no predicate yields duplication findings. -/
theorem dupFindingsForPredicate_empty (pred : WherePredicate) :
    dupFindingsForPredicate [] pred = [] := by
  cases pred with
  | boundPredicate bp =>
      obtain ⟨bsp, bty, bbounds⟩ := bp
      simp only [dupFindingsForPredicate]
      split
      · cases bty with
        | path_resolved sp stv r segs psp =>
            cases segs with
            | nil => rfl
            | cons s0 rest => rfl
        | path_type_relative sp b s => rfl
        | slice sp e => rfl
        | ref sp e => rfl
      · rfl
  | regionPredicate s => rfl
  | eqPredicate s => rfl

/-- The duplication fold over an empty parameter map emits nothing. -/
theorem dup_foldl_empty_map (preds : List WherePredicate) :
    ∀ acc : List Finding,
      preds.foldl (fun fs pred => fs ++ dupFindingsForPredicate [] pred) acc
        = acc := by
  induction preds with
  | nil => intro acc; rfl
  | cons q rest ih =>
      intro acc
      rw [List.foldl_cons, dupFindingsForPredicate_empty, List.append_nil]
      exact ih acc

/-- Claim C2 theorem: for a plain-named parameter with two inline trait
bounds and one non-expanded where-clause predicate on that parameter whose
bound list duplicates both resolved targets (through arbitrary path spans, so
through any aliases resolving to the same targets),
`check_trait_bound_duplication` emits exactly one
`TRAIT_DUPLICATION_IN_BOUNDS` finding per duplicated trait, each anchored at
the corresponding inline bound's span. -/
theorem trait_duplication_resolved_target_match
    (n : String) (gsp wsp tsp psp s1 s2 u1 u2 qa1 qa2 qb1 qb2 : Span)
    (stv : Option Ty) (r0 r1 r2 : Res)
    (hg : gsp.from_expansion = false) (hw : wsp.from_expansion = false)
    (hr : r1 ≠ r2) :
    check_trait_bound_duplication
      ⟨[⟨.plain n, [.traitBound ⟨r1, qa1⟩ s1, .traitBound ⟨r2, qa2⟩ s2]⟩],
       [.boundPredicate ⟨wsp, .path_resolved tsp stv r0 [n] psp,
          [.traitBound ⟨r1, qb1⟩ u1, .traitBound ⟨r2, qb2⟩ u2]⟩],
       gsp⟩
      = [{ lint := .traitDuplicationInBounds, span := s1,
           message := "this trait bound is already specified in the where clause",
           help := "consider removing this trait bound" },
         { lint := .traitDuplicationInBounds, span := s2,
           message := "this trait bound is already specified in the where clause",
           help := "consider removing this trait bound" }] := by
  have hr12 : (r1 == r2) = false := by simp [hr]
  simp [check_trait_bound_duplication, buildParamMap, paramInsert, paramLookup,
    dupFindingsForPredicate, get_trait_res_span_from_bound, List.find?,
    hg, hw, hr12]

/-- Claim C2 witness: parameter `T: Clone + Default` with where clause
`T: Clone + Default`, the where-clause paths written through different
aliases (distinct path spans) but resolving to the same targets; exactly one
finding per trait, anchored at the inline spans, by
`trait_duplication_resolved_target_match`. -/
theorem trait_duplication_resolved_target_match_witness :
    check_trait_bound_duplication
      ⟨[⟨.plain "T",
         [.traitBound ⟨301, ⟨30, false, "Clone"⟩⟩ ⟨31, false, "Clone"⟩,
          .traitBound ⟨302, ⟨32, false, "Default"⟩⟩ ⟨33, false, "Default"⟩]⟩],
       [.boundPredicate
          ⟨⟨34, false, "T: clone::Clone + alias::Default"⟩,
           .path_resolved ⟨35, false, "T"⟩ none 100 ["T"] ⟨36, false, "T"⟩,
           [.traitBound ⟨301, ⟨37, false, "clone::Clone"⟩⟩ ⟨38, false, "clone::Clone"⟩,
            .traitBound ⟨302, ⟨39, false, "alias::Default"⟩⟩ ⟨40, false, "alias::Default"⟩]⟩],
       ⟨41, false, "g"⟩⟩
      = [{ lint := .traitDuplicationInBounds, span := ⟨31, false, "Clone"⟩,
           message := "this trait bound is already specified in the where clause",
           help := "consider removing this trait bound" },
         { lint := .traitDuplicationInBounds, span := ⟨33, false, "Default"⟩,
           message := "this trait bound is already specified in the where clause",
           help := "consider removing this trait bound" }] :=
  trait_duplication_resolved_target_match "T" _ _ _ _ _ _ _ _ _ _ _ _ none 100
    301 302 rfl rfl (by decide)

/-- Claim C10 theorem: each occurrence of a duplicated trait in a matching
where-clause predicate's bound list produces its own finding, every finding
is anchored at the first matching inline occurrence (here the inline list
carries the same resolved trait twice, and both findings point at the first
inline bound's span), and a declaration none of whose parameters has a plain
name never yields duplication findings. -/
theorem trait_duplication_first_inline_and_nonplain :
    (∀ (n : String) (gsp wsp tsp psp sa sb ua ub pa pb qa qb : Span)
        (stv : Option Ty) (r0 r : Res),
      gsp.from_expansion = false → wsp.from_expansion = false →
      check_trait_bound_duplication
        ⟨[⟨.plain n, [.traitBound ⟨r, pa⟩ sa, .traitBound ⟨r, pb⟩ sb]⟩],
         [.boundPredicate ⟨wsp, .path_resolved tsp stv r0 [n] psp,
            [.traitBound ⟨r, qa⟩ ua, .traitBound ⟨r, qb⟩ ub]⟩],
         gsp⟩
        = [{ lint := .traitDuplicationInBounds, span := sa,
             message := "this trait bound is already specified in the where clause",
             help := "consider removing this trait bound" },
           { lint := .traitDuplicationInBounds, span := sa,
             message := "this trait bound is already specified in the where clause",
             help := "consider removing this trait bound" }])
    ∧ (∀ g : Generics,
        (∀ p ∈ g.params, ∀ id, p.name ≠ ParamName.plain id) →
        check_trait_bound_duplication g = []) := by
  constructor
  · intro n gsp wsp tsp psp sa sb ua ub pa pb qa qb stv r0 r hg hw
    simp [check_trait_bound_duplication, buildParamMap, paramInsert,
      paramLookup, dupFindingsForPredicate, get_trait_res_span_from_bound,
      List.find?, hg, hw]
  · intro g h
    rw [check_trait_bound_duplication]
    split
    · rfl
    · simp only [buildParamMap_no_plain g.params h]
      exact dup_foldl_empty_map g.predicates []

/-- Claim C10 witness: a declaration whose single parameter has a `Fresh`
(elided) name yields no duplication findings, by the non-plain clause of
`trait_duplication_first_inline_and_nonplain`. -/
theorem trait_duplication_first_inline_and_nonplain_witness :
    check_trait_bound_duplication
      ⟨[⟨.fresh 0, [.traitBound ⟨301, ⟨30, false, "Clone"⟩⟩ ⟨31, false, "Clone"⟩]⟩],
       [.boundPredicate
          ⟨⟨34, false, "T: Clone"⟩,
           .path_resolved ⟨35, false, "T"⟩ none 100 ["T"] ⟨36, false, "T"⟩,
           [.traitBound ⟨301, ⟨37, false, "Clone"⟩⟩ ⟨38, false, "Clone"⟩]⟩],
       ⟨41, false, "g"⟩⟩ = [] :=
  trait_duplication_first_inline_and_nonplain.2 _ (by
    intro p hp id
    simp only [List.mem_singleton] at hp
    rw [hp]
    simp)

/-- Concrete declaration whose only where-clause predicate bounds the
multi-segment resolved path `T::Assoc` (segments `["T", "Assoc"]`) by the
same trait that parameter `T` carries inline. -/
def multi_segment_generics : Generics :=
  ⟨[⟨.plain "T", [.traitBound ⟨7, ⟨50, false, "Clone"⟩⟩ ⟨51, false, "Clone"⟩]⟩],
   [.boundPredicate
      ⟨⟨52, false, "T::Assoc: Clone"⟩,
       .path_resolved ⟨53, false, "T::Assoc"⟩ none 99 ["T", "Assoc"]
         ⟨54, false, "T::Assoc"⟩,
       [.traitBound ⟨7, ⟨55, false, "Clone"⟩⟩ ⟨56, false, "Clone"⟩]⟩],
   ⟨57, false, "g"⟩⟩

/-- Claim C6 counterexample: the bounded type of the only predicate of
`multi_segment_generics` is a multi-segment path (`["T", "Assoc"]`), not a
direct reference to a single identifier, yet `check_trait_bound_duplication`
emits a finding for it — matching looks only at the first path segment. -/
theorem trait_duplication_multi_segment_counterexample :
    (multi_segment_generics.predicates.map
        (fun pred => match pred with
          | .boundPredicate bp =>
              match bp.bounded_ty with
              | .path_resolved _ _ _ segs _ => segs.length
              | _ => 0
          | _ => 0)) = [2]
    ∧ check_trait_bound_duplication multi_segment_generics
      = [{ lint := .traitDuplicationInBounds, span := ⟨51, false, "Clone"⟩,
           message := "this trait bound is already specified in the where clause",
           help := "consider removing this trait bound" }] := by
  set_option maxRecDepth 10000 in decide

/-- Claim C6 theorem (amended): `check_trait_bound_duplication` produces a
finding only from a non-expanded `BoundPredicate` whose bounded type is
syntactically a resolved path — of any qualification or segment count — whose
*first* segment's identifier is a key of the parameter map; slices,
references and type-relative paths never produce findings, but a
multi-segment resolved path whose first segment names a mapped parameter
can. -/
theorem trait_duplication_resolved_path_first_segment
    (g : Generics) (f : Finding) (h : f ∈ check_trait_bound_duplication g) :
    ∃ bp, WherePredicate.boundPredicate bp ∈ g.predicates ∧
      bp.span.from_expansion = false ∧
      ∃ sp stv r segs psp s0 rest,
        bp.bounded_ty = Ty.path_resolved sp stv r segs psp ∧
        segs = s0 :: rest ∧
        (paramLookup (buildParamMap g.params) s0).isSome = true := by
  rw [check_trait_bound_duplication] at h
  split at h
  · cases h
  · obtain ⟨pred, hpred, hf⟩ := dup_mem_foldl (buildParamMap g.params)
      g.predicates f h
    obtain ⟨bp, hbp, hexp, rest⟩ :=
      dupFindingsForPredicate_shape (buildParamMap g.params) pred f hf
    exact ⟨bp, by rw [← hbp]; exact hpred, hexp, rest⟩

/-- Claim C6 witness: instantiating
`trait_duplication_resolved_path_first_segment` on the finding that
`multi_segment_generics` produces. -/
theorem trait_duplication_resolved_path_first_segment_witness :
    ∃ bp, WherePredicate.boundPredicate bp ∈ multi_segment_generics.predicates ∧
      bp.span.from_expansion = false ∧
      ∃ sp stv r segs psp s0 rest,
        bp.bounded_ty = Ty.path_resolved sp stv r segs psp ∧
        segs = s0 :: rest ∧
        (paramLookup (buildParamMap multi_segment_generics.params) s0).isSome
          = true :=
  trait_duplication_resolved_path_first_segment multi_segment_generics
    { lint := .traitDuplicationInBounds, span := ⟨51, false, "Clone"⟩,
      message := "this trait bound is already specified in the where clause",
      help := "consider removing this trait bound" }
    (by set_option maxRecDepth 10000 in decide)

/-- Claim C4 theorem: the equality and hash of `SpanlessTy` agree — any two
type expressions that `spanless_eq_ty` judges equal have identical
`spanless_hash_ty` values (unequal types may still collide), so `SpanlessTy`
is a valid hash-map key type. -/
theorem spanless_eq_hash_agree (t1 t2 : Ty)
    (h : spanless_eq_ty t1 t2 = true) :
    spanless_hash_ty t1 = spanless_hash_ty t2 := by
  cases t1 with
  | path_resolved sp1 stv1 r1 segs1 ps1 =>
      cases t2 with
      | path_resolved sp2 stv2 r2 segs2 ps2 =>
          cases stv1 with
          | none =>
              cases stv2 with
              | none =>
                  simp only [spanless_eq_ty, Bool.and_eq_true, beq_iff_eq] at h
                  simp only [spanless_hash_ty, h.1, h.2]
              | some b => exact Bool.noConfusion h
          | some a =>
              cases stv2 with
              | none => exact Bool.noConfusion h
              | some b =>
                  simp only [spanless_eq_ty, Bool.and_eq_true, beq_iff_eq] at h
                  simp only [spanless_hash_ty]
                  rw [spanless_eq_hash_agree a b h.1, h.2.1, h.2.2]
      | path_type_relative sp2 b s2 => cases stv1 <;> exact Bool.noConfusion h
      | slice sp2 e2 => cases stv1 <;> exact Bool.noConfusion h
      | ref sp2 e2 => cases stv1 <;> exact Bool.noConfusion h
  | path_type_relative sp1 a s1 =>
      cases t2 with
      | path_resolved sp2 stv2 r2 segs2 ps2 =>
          cases stv2 <;> exact Bool.noConfusion h
      | path_type_relative sp2 b s2 =>
          simp only [spanless_eq_ty, Bool.and_eq_true, beq_iff_eq] at h
          simp only [spanless_hash_ty]
          rw [spanless_eq_hash_agree a b h.1, h.2]
      | slice sp2 e2 => exact Bool.noConfusion h
      | ref sp2 e2 => exact Bool.noConfusion h
  | slice sp1 a =>
      cases t2 with
      | path_resolved sp2 stv2 r2 segs2 ps2 =>
          cases stv2 <;> exact Bool.noConfusion h
      | path_type_relative sp2 b s2 => exact Bool.noConfusion h
      | slice sp2 b =>
          simp only [spanless_eq_ty] at h
          simp only [spanless_hash_ty]
          rw [spanless_eq_hash_agree a b h]
      | ref sp2 b => exact Bool.noConfusion h
  | ref sp1 a =>
      cases t2 with
      | path_resolved sp2 stv2 r2 segs2 ps2 =>
          cases stv2 <;> exact Bool.noConfusion h
      | path_type_relative sp2 b s2 => exact Bool.noConfusion h
      | slice sp2 b => exact Bool.noConfusion h
      | ref sp2 b =>
          simp only [spanless_eq_ty] at h
          simp only [spanless_hash_ty]
          rw [spanless_eq_hash_agree a b h]

/-- Claim C4 witness: two copies of `&[Vec<T>]`-like structure written at
different source positions are `spanless_eq_ty`-equal, hence hash equal by
`spanless_eq_hash_agree`. -/
theorem spanless_eq_hash_agree_witness :
    spanless_hash_ty
        (Ty.ref ⟨1, false, "&[T]"⟩
          (Ty.slice ⟨2, false, "[T]"⟩
            (Ty.path_resolved ⟨3, false, "T"⟩
              (some (Ty.path_resolved ⟨4, false, "S"⟩ none 55 ["S"]
                ⟨5, false, "S"⟩)) 100 ["T"] ⟨6, false, "T"⟩)))
      = spanless_hash_ty
        (Ty.ref ⟨7, false, "& [ T ]"⟩
          (Ty.slice ⟨8, false, "[ T ]"⟩
            (Ty.path_resolved ⟨9, false, "T"⟩
              (some (Ty.path_resolved ⟨10, false, "S"⟩ none 55 ["S"]
                ⟨11, false, "S"⟩)) 100 ["T"] ⟨12, false, "T"⟩))) :=
  spanless_eq_hash_agree _ _ (by decide)

/-- Claim C8 theorem: the repetition finding's suggested-fix string is
`hint_string`: the bounded type's source text, then the previous occurrence's
trait bounds, then the current predicate's trait bounds, each rendered from
its own path's source text and joined by the ` +` separator with the trailing
separator trimmed; in particular `T: Copy, T: Clone` in one where clause
yields the single suggestion
`consider combining the bounds: \`T: Copy + Clone\``. -/
theorem type_repetition_hint_construction :
    (∀ (conf : Nat) (params : List GenericParam) (gsp : Span)
        (p1 p2 : WhereBoundPredicate),
      gsp.from_expansion = false →
      spanless_eq_ty p1.bounded_ty p2.bounded_ty = true →
      p1.span.from_expansion = false → p2.span.from_expansion = false →
      p1.bounds.length ≤ conf → p2.bounds.length ≤ conf →
      check_type_repetition conf
          ⟨params, [.boundPredicate p1, .boundPredicate p2], gsp⟩
        = [{ lint := .typeRepetitionInBounds, span := p2.span,
             message := "this type has already been used as a bound predicate",
             help := hint_string p2.bounded_ty.span p1.bounds p2.bounds }])
    ∧ check_type_repetition 3 copy_clone_generics
      = [{ lint := .typeRepetitionInBounds, span := ⟨4, false, "T: Clone"⟩,
           message := "this type has already been used as a bound predicate",
           help := "consider combining the bounds: `T: Copy + Clone`" }] := by
  constructor
  · intro conf params gsp p1 p2 hgs heq he1 he2 hb1 hb2
    simp only [check_type_repetition, hgs, Bool.false_eq_true, if_false]
    simp [repStep, repLookup, repInsert, hb1, hb2, he1, he2, heq]
  · set_option maxRecDepth 10000 in decide

/-- Claim C8 witness: instantiating the general clause of
`type_repetition_hint_construction` on a concrete `U: Send, U: Sync`
declaration. -/
theorem type_repetition_hint_construction_witness :
    check_type_repetition 2
        ⟨[], [.boundPredicate
                ⟨⟨61, false, "U: Send"⟩,
                 .path_resolved ⟨62, false, "U"⟩ none 400 ["U"] ⟨63, false, "U"⟩,
                 [.traitBound ⟨401, ⟨64, false, "Send"⟩⟩ ⟨65, false, "Send"⟩]⟩,
              .boundPredicate
                ⟨⟨66, false, "U: Sync"⟩,
                 .path_resolved ⟨67, false, "U"⟩ none 400 ["U"] ⟨68, false, "U"⟩,
                 [.traitBound ⟨402, ⟨69, false, "Sync"⟩⟩ ⟨70, false, "Sync"⟩]⟩],
         ⟨60, false, "g"⟩⟩
      = [{ lint := .typeRepetitionInBounds, span := ⟨66, false, "U: Sync"⟩,
           message := "this type has already been used as a bound predicate",
           help := hint_string ⟨67, false, "U"⟩
             [.traitBound ⟨401, ⟨64, false, "Send"⟩⟩ ⟨65, false, "Send"⟩]
             [.traitBound ⟨402, ⟨69, false, "Sync"⟩⟩ ⟨70, false, "Sync"⟩] }] :=
  type_repetition_hint_construction.1 2 [] ⟨60, false, "g"⟩ _ _ rfl (by decide)
    rfl rfl (by decide) (by decide)

end TraitBounds
